import Mathlib

/-!
# Verification of the email-DNS domain-analysis engine

Shallow embedding, in Lean 4, of the domain-analysis engine of the
`email-dns-backend` repository (`src/server.js`, plus the near-duplicate
drafts `src/unnamed/part_000` and `src/unnamed/part_001`).

Each JavaScript helper and checker is translated into a total Lean
function.  The DNS capability (`dns.resolveMx`, `dns.resolveTxt`,
`dns.reverse`, `dns.resolve`) is modelled as explicit inputs of type
`Except String _`: `.error msg` stands for a rejected promise whose
`e.message` is `msg`, `.ok v` for a fulfilled promise.  JavaScript
strings are Lean `String`s (scanning functions work on `List Char`);
JS numbers that hold integers are `Nat`/`Int`.

Conventions used in the embedding:
* `dns.resolveTxt` returns an array of arrays of string chunks, modelled
  as `List (List String)`; the JS code joins each chunk array with
  `.join('')`.
* JS truthiness tests on strings (`!domain`, `!ip`, `!rua`) are modelled
  explicitly: a string is falsy iff it is empty; `null`/`undefined` are
  `Option.none`.
* JS `Array.prototype.sort` with comparator `(a, b) => a.priority - b.priority`
  is a stable ascending sort, modelled with `List.mergeSort`.
-/

/-! ## Generic string helpers (JS semantics) -/

/-- Occurrence test for `sub` inside `s` (as character lists). -/
def containsSubList (sub : List Char) : List Char → Bool
  | [] => sub.isEmpty
  | c :: rest => sub.isPrefixOf (c :: rest) || containsSubList sub rest

/-- JS `String.prototype.includes(sub)`: substring test. -/
def containsSub (s sub : String) : Bool :=
  containsSubList sub.toList s.toList

/-- JS `String.prototype.startsWith(p)`. -/
def strStartsWith (s p : String) : Bool :=
  p.toList.isPrefixOf s.toList

/-- JS regex `\w` character class: `[A-Za-z0-9_]`. -/
def isWordChar (c : Char) : Bool :=
  c.isAlphanum || c == '_'

/-- The base64 character class `[A-Za-z0-9+/=]` of the DKIM `p=` regex. -/
def isB64Char (c : Char) : Bool :=
  c.isAlphanum || c == '+' || c == '/' || c == '='

/-- Whitespace stripped by JS `String.prototype.trim` (ASCII part). -/
def jsIsSpace (c : Char) : Bool :=
  c == ' ' || c == '\t' || c == '\n' || c == '\r' || c == '\x0b' || c == '\x0c'

/-- JS `Array.prototype.join('')` on an array of strings. -/
def joinChunks (l : List String) : String :=
  ⟨(l.map String.toList).flatten⟩

/-! ## Result structures (the checker payloads of `src/server.js`) -/

structure MXRecord where
  exchange : String
  priority : Nat
  deriving DecidableEq, Repr

structure MXResult where
  status : String
  records : List MXRecord
  provider : String
  issues : List String
  deriving DecidableEq, Repr

structure SPFResult where
  status : String
  record : Option String
  policy : Option String
  lookupCount : Nat
  issues : List String
  deriving DecidableEq, Repr

structure DKIMSelector where
  selector : String
  keyType : String
  keySize : String
  deriving DecidableEq, Repr

structure DKIMResult where
  status : String
  selectors : List DKIMSelector
  issues : List String
  deriving DecidableEq, Repr

structure DMARCResult where
  status : String
  record : Option String
  policy : Option String
  rua : Option String
  issues : List String
  deriving DecidableEq, Repr

structure PTRResult where
  status : String
  hostname : Option String
  /-- `none` models a JS object without the `fcRdns` field (the SKIPPED
  result of `src/server.js` omits it). -/
  fcRdns : Option Bool
  issues : List String
  deriving DecidableEq, Repr

/-! ## SPF helpers (`src/server.js` lines 36–68) -/

/-- The joined TXT values that begin with `v=spf1`
(the `spfRecords` array inside `extractSPFRecord`). -/
def spfCandidates (txtRecords : List (List String)) : List String :=
  (txtRecords.map joinChunks).filter (fun r => strStartsWith r "v=spf1")

/-- `extractSPFRecord` of `src/server.js`: the first `v=spf1` TXT value
paired with the `multiple` flag (`spfRecords.length > 1`), or `none` if
there is no SPF record. -/
def extractSPFRecord (txtRecords : List (List String)) : Option (String × Bool) :=
  match spfCandidates txtRecords with
  | [] => none
  | first :: rest => some (first, rest.length > 0)

/-- One pass of `spfRecord.match(new RegExp('\\b' + m, 'g'))` for a literal
pattern `pat`: counts non-overlapping matches, scanning left to right,
where a match requires a `\b` boundary before it.  `prevW` records whether
the character preceding the current position is a word character (`false`
at the start of the string).  All five SPF mechanism patterns begin with a
word character, for which `\b` before the match means exactly that the
previous character is not a word character. -/
def countPatWB (pat : List Char) : List Char → Bool → Nat
  | [], _ => 0
  | c :: rest, prevW =>
    if prevW = false ∧ pat.isPrefixOf (c :: rest) = true then
      1 + countPatWB pat (rest.drop (pat.length - 1)) (isWordChar (pat.getLastD 'x'))
    else
      countPatWB pat rest (isWordChar c)
  termination_by s _ => s.length
  decreasing_by
    · simp only [List.length_drop, List.length_cons]; omega
    · simp

/-- The mechanism list of `countSPFLookups` in `src/server.js`. -/
def spfLookupPatterns : List String :=
  ["include:", "a", "mx", "ptr", "exists:"]

/-- `countSPFLookups` of `src/server.js`: sums, over the five mechanism
patterns, the number of `\b`-anchored matches in the record. -/
def countSPFLookups (spfRecord : String) : Nat :=
  (spfLookupPatterns.map (fun m => countPatWB m.toList spfRecord.toList false)).sum

/-- `parseSPFPolicy` of `src/server.js`: a fixed-precedence presence test
(`-all`, then `~all`, then `?all`, then `+all`, anywhere in the record). -/
def parseSPFPolicy (spfRecord : String) : String :=
  if containsSub spfRecord "-all" then "-all (Fail)"
  else if containsSub spfRecord "~all" then "~all (SoftFail)"
  else if containsSub spfRecord "?all" then "?all (Neutral)"
  else if containsSub spfRecord "+all" then "+all (Pass)"
  else "Unknown"

/-! ## MX helpers (`src/server.js` lines 73–95) -/

/-- `detectEmailProvider` of `src/server.js`. -/
def detectEmailProvider (mxRecords : List MXRecord) : String :=
  let exchanges := mxRecords.map (fun mx => mx.exchange.toLower)
  if exchanges.any (fun e => containsSub e "google.com") then "Google Workspace"
  else if exchanges.any (fun e =>
    containsSub e "outlook.com" || containsSub e "protection.outlook.com") then "Microsoft 365"
  else if exchanges.any (fun e => containsSub e "zoho.com") then "Zoho Mail"
  else if exchanges.any (fun e => containsSub e "protonmail") then "Proton Mail"
  else "Unknown / Custom"

/-- `detectMultipleProviders` of `src/server.js`: builds a `Set` of the
known providers hit by the exchanges and tests `size > 1`. -/
def detectMultipleProviders (mxRecords : List MXRecord) : Bool :=
  let hasGoogle := mxRecords.any (fun mx => containsSub mx.exchange.toLower "google.com")
  let hasMicrosoft := mxRecords.any (fun mx => containsSub mx.exchange.toLower "outlook.com")
  let hasZoho := mxRecords.any (fun mx => containsSub mx.exchange.toLower "zoho.com")
  (if hasGoogle then 1 else 0) + (if hasMicrosoft then 1 else 0) +
    (if hasZoho then 1 else 0) > 1

/-- `records.sort((a, b) => a.priority - b.priority)`: stable ascending sort. -/
def sortMX (records : List MXRecord) : List MXRecord :=
  records.mergeSort (fun a b => a.priority ≤ b.priority)

/-! ## DKIM helpers (`src/server.js` lines 100–115) -/

/-- `detectDKIMKeyType` of `src/server.js`. -/
def detectDKIMKeyType (record : String) : String :=
  if containsSub record "k=ed25519" then "Ed25519" else "RSA"

/-- The capture group of `record.match(/p=([A-Za-z0-9+\/=]+)/)`: scan for the
first position where `p=` is followed by at least one base64 character; the
group is the maximal base64 run after the `=`. -/
def extractPValue : List Char → Option (List Char)
  | [] => none
  | 'p' :: rest =>
    match rest with
    | '=' :: c :: rest2 =>
      if isB64Char c then some (c :: rest2.takeWhile isB64Char)
      else extractPValue rest
    | _ => extractPValue rest
  | _ :: rest => extractPValue rest

/-- `Math.round((len * 6) / 8) * 8` for a natural `len`.  Since
`len * 6 / 8 = (3 * len) / 4` has fractional part in `{0, ¼, ½, ¾}` and JS
`Math.round` rounds half up, the result is `⌊(3 * len + 2) / 4⌋ * 8`. -/
def jsRoundBits (len : Nat) : Nat :=
  ((3 * len + 2) / 4) * 8

/-- The bucket string returned by `estimateDKIMKeySize` for a key of base64
length `len`. -/
def dkimBucketStr (len : Nat) : String :=
  let bits := jsRoundBits len
  if bits ≥ 2048 then "2048-bit"
  else if bits ≥ 1024 then "1024-bit"
  else s!"{bits}-bit"

/-- Numeric rank of the bucket for a key of base64 length `len`, encoding
the bucket order `⟨literal bit count⟩-bit < 1024-bit < 2048-bit`. -/
def bucketRank (len : Nat) : Nat :=
  let bits := jsRoundBits len
  if bits ≥ 2048 then 2048
  else if bits ≥ 1024 then 1024
  else bits

/-- `estimateDKIMKeySize` of `src/server.js`. -/
def estimateDKIMKeySize (record : String) : String :=
  match extractPValue record.toList with
  | none => "Unknown"
  | some p => dkimBucketStr p.length

/-! ## DMARC tag extraction (`src/server.js` lines 221–222) -/

/-- The capture group of `record.match(/key([^;]+)/)` for a literal `key`
(used with `key = "p="` and `key = "rua="`): scan for the first position
where `key` is followed by at least one non-`;` character; the group is
the maximal non-`;` run after it. -/
def matchKeyVal (key : List Char) : List Char → Option (List Char)
  | [] => none
  | c :: rest =>
    if key.isPrefixOf (c :: rest) then
      match ((c :: rest).drop key.length).takeWhile (fun ch => ch ≠ ';') with
      | [] => matchKeyVal key rest
      | v => some v
    else matchKeyVal key rest

/-! ## The five checkers of `src/server.js` (lines 120–270) -/

/-- `checkMX` of `src/server.js`; `dnsMx` is the outcome of
`dns.resolveMx(domain)`. -/
def checkMX (dnsMx : Except String (List MXRecord)) : MXResult :=
  match dnsMx with
  | .error e => ⟨"FAIL", [], "None", [e]⟩
  | .ok records =>
    let sorted := sortMX records
    let provider := detectEmailProvider sorted
    let issues :=
      if detectMultipleProviders sorted then ["Multiple email providers detected"] else []
    ⟨if issues.isEmpty then "PASS" else "WARN", sorted, provider, issues⟩

/-- `checkSPF` of `src/server.js`; `dnsTxt` is the outcome of
`dns.resolveTxt(domain)`. -/
def checkSPF (dnsTxt : Except String (List (List String))) : SPFResult :=
  match dnsTxt with
  | .error e => ⟨"FAIL", none, none, 0, [e]⟩
  | .ok txt =>
    match extractSPFRecord txt with
    | none => ⟨"FAIL", none, none, 0, ["No SPF record found"]⟩
    | some (record, multiple) =>
      let lookupCount := countSPFLookups record
      let policy := parseSPFPolicy record
      let issues :=
        (if multiple then ["Multiple SPF records detected"] else []) ++
        (if lookupCount > 10 then [s!"SPF lookup count ({lookupCount}) exceeds 10"] else []) ++
        (if containsSub policy "Neutral" || containsSub policy "Pass" then
          ["SPF policy is too permissive"] else [])
      ⟨if issues.isEmpty then "PASS" else "WARN", some record, some policy, lookupCount, issues⟩

/-- The selector probe list of `checkDKIM` in `src/server.js`. -/
def dkimSelectorList : List String :=
  ["google", "selector1", "selector2", "default", "dkim", "s1", "s2"]

/-- One probe of `checkDKIM`: resolve TXT at `{s}._domainkey.{domain}`;
a rejected promise or an empty record set (where `recs[0].join` throws)
is swallowed by the `catch {}`; a record is accepted only if it contains
`p=`. -/
def probeDKIM (resolveTxt : String → Except String (List (List String)))
    (domain sel : String) : Option DKIMSelector :=
  match resolveTxt (sel ++ "._domainkey." ++ domain) with
  | .error _ => none
  | .ok [] => none
  | .ok (r0 :: _) =>
    let record := joinChunks r0
    if containsSub record "p=" then
      some ⟨sel, detectDKIMKeyType record, estimateDKIMKeySize record⟩
    else none

/-- `checkDKIM` of `src/server.js`. -/
def checkDKIM (resolveTxt : String → Except String (List (List String)))
    (domain : String) : DKIMResult :=
  let found := dkimSelectorList.filterMap (probeDKIM resolveTxt domain)
  if found.isEmpty then ⟨"WARN", [], ["No DKIM found on common selectors"]⟩
  else ⟨"PASS", found, []⟩

/-- `checkDMARC` of `src/server.js`; `dnsTxt` is the outcome of
`dns.resolveTxt('_dmarc.' + domain)`.  An empty record set makes
`recs[0].join('')` throw, landing in the same catch as a rejection. -/
def checkDMARC (dnsTxt : Except String (List (List String))) : DMARCResult :=
  match dnsTxt with
  | .error _ => ⟨"FAIL", none, none, none, ["No DMARC record found"]⟩
  | .ok [] => ⟨"FAIL", none, none, none, ["No DMARC record found"]⟩
  | .ok (r0 :: _) =>
    let record := joinChunks r0
    let policy := ((matchKeyVal "p=".toList record.toList).map (fun l => (⟨l⟩ : String))).getD "none"
    let rua := (matchKeyVal "rua=".toList record.toList).map (fun l => (⟨l⟩ : String))
    let issues :=
      (if policy = "none" then ["DMARC policy is none"] else []) ++
      (if rua.isNone then ["No DMARC rua configured"] else [])
    ⟨if issues.isEmpty then "PASS" else "WARN", some record, some policy, rua, issues⟩

/-- `checkPTR` of `src/server.js`.  `ip` is the caller-supplied IP
(`none` = absent, and the empty string is JS-falsy too); `rev` is the
outcome of `dns.reverse(ip)`; `fwd` is the outcome of
`dns.resolve(hostname)` as a function of the hostname argument
(`none` models `hostnames[0]` being `undefined`). -/
def checkPTR (ip : Option String) (rev : Except String (List String))
    (fwd : Option String → Except String (List String)) : PTRResult :=
  if ip = none ∨ ip = some "" then ⟨"SKIPPED", none, none, ["No IP provided"]⟩
  else
    let ipAddr := ip.getD ""
    match rev with
    | .error e => ⟨"FAIL", none, some false, [e]⟩
    | .ok hostnames =>
      match fwd hostnames.head? with
      | .error e => ⟨"FAIL", none, some false, [e]⟩
      | .ok addresses =>
        let fcRdns := addresses.contains ipAddr
        ⟨if fcRdns then "PASS" else "FAIL", hostnames.head?, some fcRdns,
          if fcRdns then [] else ["FC-rDNS failed"]⟩

/-! ## Domain normalization and the request guards
(`src/server.js` lines 275–279, `src/unnamed/part_001` lines 376–379) -/

/-- JS `String.prototype.trim` on a character list (ASCII whitespace). -/
def trimChars (l : List Char) : List Char :=
  ((l.dropWhile jsIsSpace).reverse.dropWhile jsIsSpace).reverse

/-- JS `String.prototype.toLowerCase` (ASCII range, as used here). -/
def lowerChars (l : List Char) : List Char :=
  l.map Char.toLower

/-- `.replace(/^https?:\/\//, '')`: strip one leading `http://` or
`https://`. -/
def stripSchemeChars (l : List Char) : List Char :=
  if "https://".toList.isPrefixOf l then l.drop 8
  else if "http://".toList.isPrefixOf l then l.drop 7
  else l

/-- `.replace(/\/$/, '')`: strip one trailing slash. -/
def stripTrailSlash (l : List Char) : List Char :=
  match l.getLast? with
  | some '/' => l.dropLast
  | _ => l

/-- `domain.trim().toLowerCase().replace(/^https?:\/\//, '').replace(/\/$/, '')`
— the normalization pipeline shared by all drafts. -/
def normalizeDomain (d : String) : String :=
  ⟨stripTrailSlash (stripSchemeChars (lowerChars (trimChars d.toList)))⟩

/-- The guard of `src/server.js`: `if (!domain) return 400` — tested on the
RAW request field, before normalization (`none` = absent, `""` = falsy). -/
def serverRejects (domain : Option String) : Bool :=
  match domain with
  | none => true
  | some d => d == ""

/-- The guard of `src/unnamed/part_001`:
`const clean = domain?.trim()...; if (!clean) return 400` — tested on the
NORMALIZED value. -/
def part001Rejects (domain : Option String) : Bool :=
  match domain with
  | none => true
  | some d => normalizeDomain d == ""

/-! ## Reputation scorer (`src/unnamed/part_001` lines 344–374) -/

structure Reputation where
  score : Int
  level : String
  notes : List String
  deriving DecidableEq, Repr

/-- The fields of the SPF checker result that `buildReputation` reads
(`spf?.record` and `spf.policy?.includes(...)`). -/
structure RepSPF where
  record : Option String
  policy : Option String
  deriving DecidableEq, Repr

/-- The fields of the DMARC checker result that `buildReputation` reads
(`dmarc?.record` and `dmarc.parsed?.policy`). -/
structure RepDMARC where
  record : Option String
  parsedPolicy : Option String
  deriving DecidableEq, Repr

/-- JS falsiness of a possibly-absent string (`!x` is true for
`undefined`, `null` and `''`). -/
def jsFalsyStr (x : Option String) : Bool :=
  x = none ∨ x = some ""

/-- `spf.policy?.includes('Neutral') || spf.policy?.includes('DANGEROUS')`. -/
def repSPFWeak (policy : Option String) : Bool :=
  match policy with
  | none => false
  | some p => containsSub p "Neutral" || containsSub p "DANGEROUS"

/-- `buildReputation` of `src/unnamed/part_001`; `dkimSelectors` is
`dkim.selectors`. -/
def buildReputation (spf : RepSPF) (dkimSelectors : List DKIMSelector)
    (dmarc : RepDMARC) : Reputation :=
  let spfPart : Int × List String :=
    if jsFalsyStr spf.record then (25, ["No SPF record configured"])
    else if repSPFWeak spf.policy then (20, ["SPF policy is weak"])
    else (0, [])
  let dkimPart : Int × List String :=
    if dkimSelectors.isEmpty then (30, ["No DKIM detected"]) else (0, [])
  let dmarcPart : Int × List String :=
    if jsFalsyStr dmarc.record then (25, ["No DMARC configured"])
    else if dmarc.parsedPolicy = some "none" then (15, ["DMARC policy is none"])
    else (0, [])
  let score : Int := 100 - spfPart.1 - dkimPart.1 - dmarcPart.1
  let level := if score < 50 then "High Risk" else if score < 80 then "Medium" else "Good"
  ⟨score, level, spfPart.2 ++ dkimPart.2 ++ dmarcPart.2⟩

/-- The SPF deduction of `buildReputation`, in isolation. -/
def spfDeduction (spf : RepSPF) : Int :=
  if jsFalsyStr spf.record then 25
  else if repSPFWeak spf.policy then 20
  else 0

/-- The DKIM deduction of `buildReputation`, in isolation. -/
def dkimDeduction (dkimSelectors : List DKIMSelector) : Int :=
  if dkimSelectors.isEmpty then 30 else 0

/-- The DMARC deduction of `buildReputation`, in isolation. -/
def dmarcDeduction (dmarc : RepDMARC) : Int :=
  if jsFalsyStr dmarc.record then 25
  else if dmarc.parsedPolicy = some "none" then 15
  else 0

/-! ## The analysis orchestrator (`src/server.js` lines 281–289) -/

structure AnalysisReport where
  domain : String
  mx : MXResult
  spf : SPFResult
  dkim : DKIMResult
  dmarc : DMARCResult
  ptr : PTRResult
  deriving Repr

/-- All DNS capability outcomes relevant to one request. -/
structure DNSEnv where
  mx : Except String (List MXRecord)
  txt : Except String (List (List String))
  dkimProbe : String → Except String (List (List String))
  dmarcTxt : Except String (List (List String))
  rev : Except String (List String)
  fwd : Option String → Except String (List String)

/-- The `Promise.all` fan-out of the `/api/check` handler in
`src/server.js`: the five checkers run independently over the DNS
capability and the aggregate is assembled from all five results. -/
def analyze (domain : String) (ip : Option String) (env : DNSEnv) : AnalysisReport :=
  ⟨domain, checkMX env.mx, checkSPF env.txt, checkDKIM env.dkimProbe domain,
    checkDMARC env.dmarcTxt, checkPTR ip env.rev env.fwd⟩

/-! ## Spec-side definitions (for refutation of claims, stated from the
claims' own words, not from the source) -/

/-- Rightmost-`all`-qualifier policy, following the words of the claim:
scan the record left to right, remembering the policy of the LAST
`-all` / `~all` / `?all` / `+all` occurrence seen; an absent qualifier
yields pass.  Policies are expressed with the code's label strings so the
two functions can be compared directly. -/
def rightmostAllScan : List Char → String → String
  | [], acc => acc
  | c :: rest, acc =>
    if "-all".toList.isPrefixOf (c :: rest) then rightmostAllScan rest "-all (Fail)"
    else if "~all".toList.isPrefixOf (c :: rest) then rightmostAllScan rest "~all (SoftFail)"
    else if "?all".toList.isPrefixOf (c :: rest) then rightmostAllScan rest "?all (Neutral)"
    else if "+all".toList.isPrefixOf (c :: rest) then rightmostAllScan rest "+all (Pass)"
    else rightmostAllScan rest acc

/-- The claim's SPF policy function: governed by the rightmost `all`
qualifier, pass when absent. -/
def specRightmostPolicy (r : String) : String :=
  rightmostAllScan r.toList "+all (Pass)"

/-- A record assembled from whitespace-separated mechanism terms, joined
by single spaces. -/
def joinSp : List (List Char) → List Char
  | [] => []
  | [t] => t
  | t :: t2 :: ts => t ++ ' ' :: joinSp (t2 :: ts)

/-! ## Helper lemmas -/

theorem countPatWB_nil (pat : List Char) (b : Bool) : countPatWB pat [] b = 0 := by
  simp [countPatWB]

theorem countPatWB_cons (pat : List Char) (c : Char) (rest : List Char) (prevW : Bool) :
    countPatWB pat (c :: rest) prevW =
      if prevW = false ∧ pat.isPrefixOf (c :: rest) = true then
        1 + countPatWB pat (rest.drop (pat.length - 1)) (isWordChar (pat.getLastD 'x'))
      else
        countPatWB pat rest (isWordChar c) := by
  simp [countPatWB]

/-- A pattern without a space is a prefix of `u ++ ' ' :: v` exactly when it
is a prefix of `u`: no match can straddle the separating space. -/
theorem isPrefixOf_append_space {pat : List Char} (hsp : ' ' ∉ pat) (u v : List Char) :
    pat.isPrefixOf (u ++ ' ' :: v) = pat.isPrefixOf u := by
  cases hpu : pat.isPrefixOf u with
  | true =>
    have h1 : pat <+: u := List.isPrefixOf_iff_prefix.mp hpu
    have h2 : pat <+: u ++ ' ' :: v := h1.trans (List.prefix_append u (' ' :: v))
    exact List.isPrefixOf_iff_prefix.mpr h2
  | false =>
    cases hfull : pat.isPrefixOf (u ++ ' ' :: v) with
    | false => rfl
    | true =>
      exfalso
      have h : pat <+: u ++ ' ' :: v := List.isPrefixOf_iff_prefix.mp hfull
      rcases le_or_lt pat.length u.length with hle | hlt
      · have : pat <+: u :=
          List.prefix_of_prefix_length_le h (List.prefix_append u (' ' :: v)) hle
        rw [ List.isPrefixOf_iff_prefix.mpr this] at hpu
        exact Bool.noConfusion hpu
      · have hup : u <+: pat :=
          List.prefix_of_prefix_length_le (List.prefix_append u (' ' :: v)) h
            (Nat.le_of_lt hlt)
        obtain ⟨w, hw⟩ := hup
        subst hw
        have hwlen : w ≠ [] := by
          intro h0
          subst h0
          simp at hlt
        have hwpre : w <+: ' ' :: v := (List.prefix_append_right_inj u).mp h
        cases w with
        | nil => exact hwlen rfl
        | cons c w2 =>
          have hc : c = ' ' := (List.cons_prefix_cons.mp hwpre).1
          subst hc
          exact hsp (List.mem_append_right u (List.mem_cons_self _ _))

/-- Scanning a space at the head just resets the word-boundary state. -/
theorem countPatWB_space_head (pat : List Char) (hne : pat ≠ []) (hsp : ' ' ∉ pat)
    (r : List Char) (b : Bool) :
    countPatWB pat (' ' :: r) b = countPatWB pat r false := by
  rw [countPatWB_cons]
  have hpre : pat.isPrefixOf (' ' :: r) = false := by
    cases pat with
    | nil => exact absurd rfl hne
    | cons p0 pr =>
      have hp0 : p0 ≠ ' ' := fun h => hsp (h ▸ List.mem_cons_self p0 pr)
      simp [List.isPrefixOf, hp0]
  rw [if_neg (by simp [hpre])]
  rw [(by decide : isWordChar ' ' = false)]

/-- Splitting the boundary-aware match count at an inserted space:
because no pattern contains a space, matches in `t` and matches in `r`
are independent and the space resets the boundary state. -/
theorem countPatWB_split (pat : List Char) (hne : pat ≠ []) (hsp : ' ' ∉ pat) :
    ∀ (n : Nat) (t r : List Char) (b : Bool), t.length ≤ n →
      countPatWB pat (t ++ ' ' :: r) b = countPatWB pat t b + countPatWB pat r false := by
  intro n
  induction n with
  | zero =>
    intro t r b ht
    have h0 : t = [] := by
      cases t with
      | nil => rfl
      | cons _ _ => simp at ht
    subst h0
    rw [List.nil_append, countPatWB_space_head pat hne hsp r b, countPatWB_nil]
    omega
  | succ n ih =>
    intro t r b ht
    cases t with
    | nil =>
      rw [List.nil_append, countPatWB_space_head pat hne hsp r b, countPatWB_nil]
      omega
    | cons c t2 =>
      have hlen2 : t2.length ≤ n := by simp at ht; omega
      rw [List.cons_append, countPatWB_cons, countPatWB_cons]
      have hpre_eq : pat.isPrefixOf (c :: (t2 ++ ' ' :: r)) = pat.isPrefixOf (c :: t2) := by
        rw [← List.cons_append]
        exact isPrefixOf_append_space hsp (c :: t2) r
      by_cases hcond : b = false ∧ pat.isPrefixOf (c :: t2) = true
      · have hplen : pat.length ≤ t2.length + 1 := by
          have := ( List.isPrefixOf_iff_prefix.mp hcond.2).length_le
          simpa using this
        rw [if_pos ⟨hcond.1, hpre_eq.trans hcond.2⟩, if_pos hcond]
        rw [List.drop_append_of_le_length (by omega : pat.length - 1 ≤ t2.length)]
        rw [ih (t2.drop (pat.length - 1)) r _ (by simp; omega)]
        omega
      · have hcond2 : ¬(b = false ∧ pat.isPrefixOf (c :: (t2 ++ ' ' :: r)) = true) := by
          rw [hpre_eq]; exact hcond
        rw [if_neg hcond2, if_neg hcond]
        exact ih t2 r (isWordChar c) hlen2

/-- The match count of a record assembled from tokens is the sum of the
per-token match counts, each started with a fresh boundary state. -/
theorem countPatWB_joinSp (pat : List Char) (hne : pat ≠ []) (hsp : ' ' ∉ pat) :
    ∀ toks : List (List Char),
      countPatWB pat (joinSp toks) false = (toks.map (fun t => countPatWB pat t false)).sum := by
  intro toks
  induction toks with
  | nil => simp [joinSp, countPatWB_nil]
  | cons t ts ih =>
    cases ts with
    | nil => simp [joinSp]
    | cons t2 ts2 =>
      have hstep : joinSp (t :: t2 :: ts2) = t ++ ' ' :: joinSp (t2 :: ts2) := rfl
      rw [hstep, countPatWB_split pat hne hsp t.length t (joinSp (t2 :: ts2)) false le_rfl, ih]
      simp

theorem pass_iff_empty (l : List String) :
    ((if l.isEmpty then "PASS" else "WARN") = "PASS") ↔ l = [] := by
  cases l <;> simp

theorem perm_any_eq {α : Type} {l1 l2 : List α} (h : l1.Perm l2) (f : α → Bool) :
    l1.any f = l2.any f := by
  cases h1 : l1.any f <;> cases h2 : l2.any f <;>
    simp_all [List.any_eq_true, List.any_eq_false, h.mem_iff]
  · obtain ⟨x, hx, hfx⟩ := h2
    exact absurd hfx (by simp [h1 x hx])
  · obtain ⟨x, hx, hfx⟩ := h1
    exact absurd hfx (by simp [h2 x hx])

theorem detectMultipleProviders_sortMX (recs : List MXRecord) :
    detectMultipleProviders (sortMX recs) = detectMultipleProviders recs := by
  have hperm : (sortMX recs).Perm recs := List.mergeSort_perm recs _
  simp only [detectMultipleProviders]
  rw [perm_any_eq hperm, perm_any_eq hperm, perm_any_eq hperm]

theorem jsRoundBits_mono {a b : Nat} (h : a ≤ b) : jsRoundBits a ≤ jsRoundBits b := by
  simp only [jsRoundBits]
  omega

theorem bucketRank_mono {a b : Nat} (h : a ≤ b) : bucketRank a ≤ bucketRank b := by
  have hb := jsRoundBits_mono h
  simp only [bucketRank]
  split_ifs <;> omega

/-! ## Claims -/

/-- Claim C1, counterexample.  The claim asserts that the Reputation Scorer
on `{spf.policy = pass, dkim.selectors = [], dmarc.policy = none}` returns
score exactly 30 = 100 − 20 − 30 − 20, with a −20 deduction for DMARC
policy `none`.  In `buildReputation` of `src/unnamed/part_001` the DMARC
`none` deduction is −15 (−25 is used only when the DMARC record is absent
altogether), so this input scores 100 − 20 − 30 − 15 = 35, not 30.
The SPF result carrying policy pass is the one produced by the same
draft's `spfPolicy` for `+all`. -/
theorem C1_counterexample :
    buildReputation ⟨some "v=spf1 +all", some "Pass (Accept all - DANGEROUS)"⟩ []
        ⟨some "v=DMARC1; p=none", some "none"⟩ =
      ⟨35, "High Risk", ["SPF policy is weak", "No DKIM detected", "DMARC policy is none"]⟩ ∧
    (buildReputation ⟨some "v=spf1 +all", some "Pass (Accept all - DANGEROUS)"⟩ []
        ⟨some "v=DMARC1; p=none", some "none"⟩).score ≠ 30 := by
  constructor
  · decide
  · decide

/-- Claim C1, amended.  The Reputation Scorer applied to inputs with SPF
policy pass, an empty DKIM selector list, and DMARC policy `none` (with a
DMARC record present) returns score exactly 35 = 100 − 20 − 30 − 15 and
level High Risk.  The deductions are independently applicable and additive:
−25 if the SPF record is absent, else −20 if the SPF policy string contains
`Neutral` or `DANGEROUS`; −30 if the DKIM selector list is empty; −25 if
the DMARC record is absent, else −15 if the DMARC policy is `none`. -/
theorem C1_amended :
    (∀ (spf : RepSPF) (dkim : List DKIMSelector) (dmarc : RepDMARC),
      (buildReputation spf dkim dmarc).score =
        100 - spfDeduction spf - dkimDeduction dkim - dmarcDeduction dmarc) ∧
    buildReputation ⟨some "v=spf1 +all", some "Pass (Accept all - DANGEROUS)"⟩ []
        ⟨some "v=DMARC1; p=none", some "none"⟩ =
      ⟨35, "High Risk", ["SPF policy is weak", "No DKIM detected", "DMARC policy is none"]⟩ := by
  constructor
  · intro spf dkim dmarc
    simp only [buildReputation, spfDeduction, dkimDeduction, dmarcDeduction]
    split_ifs <;> simp
  · decide

/-- Claim C2, counterexample.  The claim asserts the derived SPF policy is
determined by the rightmost `all` qualifier.  `parseSPFPolicy` of
`src/server.js` instead tests presence in the fixed order `-all`, `~all`,
`?all`, `+all`: on `"v=spf1 -all ~all"` the rightmost qualifier is `~all`
(softfail under the claim, computed by the spec-side function
`specRightmostPolicy`), but the code returns the fail label because `-all`
occurs somewhere in the record. -/
theorem C2_counterexample :
    parseSPFPolicy "v=spf1 -all ~all" = "-all (Fail)" ∧
    specRightmostPolicy "v=spf1 -all ~all" = "~all (SoftFail)" ∧
    parseSPFPolicy "v=spf1 -all ~all" ≠ specRightmostPolicy "v=spf1 -all ~all" := by
  refine ⟨by decide, by decide, by decide⟩

/-- Claim C2, amended.  For every SPF record string, `parseSPFPolicy` of
`src/server.js` derives the policy by a fixed-precedence presence test,
regardless of position: a record containing `-all` anywhere yields the fail
label; else one containing `~all` yields softfail; else `?all` yields
neutral; else `+all` yields pass; a record with no `all` qualifier yields
`Unknown` (not pass). -/
theorem C2_amended : ∀ r : String,
    (containsSub r "-all" = true → parseSPFPolicy r = "-all (Fail)") ∧
    (containsSub r "-all" = false → containsSub r "~all" = true →
      parseSPFPolicy r = "~all (SoftFail)") ∧
    (containsSub r "-all" = false → containsSub r "~all" = false →
      containsSub r "?all" = true → parseSPFPolicy r = "?all (Neutral)") ∧
    (containsSub r "-all" = false → containsSub r "~all" = false →
      containsSub r "?all" = false → containsSub r "+all" = true →
      parseSPFPolicy r = "+all (Pass)") ∧
    (containsSub r "-all" = false → containsSub r "~all" = false →
      containsSub r "?all" = false → containsSub r "+all" = false →
      parseSPFPolicy r = "Unknown") := by
  intro r
  refine ⟨?_, ?_, ?_, ?_, ?_⟩ <;> intros <;> simp_all [parseSPFPolicy]

/-- Witness for C2_amended at the record `"v=spf1 ~all"`. -/
theorem C2_amended_witness : parseSPFPolicy "v=spf1 ~all" = "~all (SoftFail)" :=
  (C2_amended "v=spf1 ~all").2.1 (by decide) (by decide)

/-- Claim C7, counterexample.  The claim asserts that every input whose
normalized result is empty is rejected with `InvalidInput` before any DNS
call.  The `/api/check` handler of `src/server.js` tests `!domain` on the
RAW request field before normalizing and never re-checks afterwards, so
the input `"/"` — which normalizes to the empty string — passes the guard
and the handler proceeds to the `Promise.all` of the five DNS checkers
with the empty domain. -/
theorem C7_counterexample :
    normalizeDomain "/" = "" ∧ serverRejects (some "/") = false := by
  refine ⟨by decide, by decide⟩

/-- Claim C7, amended.  Domain normalization strips a leading `http://` or
`https://` scheme, a trailing slash and surrounding whitespace, and
lower-cases, mapping `"HTTPS://Example.COM/"` to `"example.com"`.  The
rejection gate differs between drafts: `src/server.js` rejects exactly the
absent or raw-empty domain (so inputs that merely normalize to empty are
not rejected), while `src/unnamed/part_001` rejects exactly the inputs
whose NORMALIZED result is empty, as the claim describes. -/
theorem C7_amended :
    normalizeDomain "HTTPS://Example.COM/" = "example.com" ∧
    (∀ d : String, serverRejects (some d) = true ↔ d = "") ∧
    (∀ d : String, part001Rejects (some d) = true ↔ normalizeDomain d = "") ∧
    serverRejects none = true ∧ part001Rejects none = true := by
  refine ⟨by decide, ?_, ?_, rfl, rfl⟩
  · intro d; simp [serverRejects]
  · intro d; simp [part001Rejects]

/-- Claim C3.  Whenever the resolver returns two or more TXT records whose
joined value begins with `v=spf1` (`spfCandidates` lists them in resolver
order), `extractSPFRecord` reports `multiple = true` with the first such
record, `checkSPF` reports that record, and the multiple-records issue is
raised; when the resolver returns no SPF record, `checkSPF` returns status
FAIL with the issue "No SPF record found". -/
theorem C3_spf_multiple_and_missing : ∀ (recs : List (List String)) (r1 r2 : String)
    (rest : List String),
    (spfCandidates recs = r1 :: r2 :: rest →
      extractSPFRecord recs = some (r1, true) ∧
      (checkSPF (.ok recs)).record = some r1 ∧
      "Multiple SPF records detected" ∈ (checkSPF (.ok recs)).issues) ∧
    (spfCandidates recs = [] →
      checkSPF (.ok recs) = ⟨"FAIL", none, none, 0, ["No SPF record found"]⟩) := by
  intro recs r1 r2 rest
  constructor
  · intro h
    have hex : extractSPFRecord recs = some (r1, true) := by
      simp [extractSPFRecord, h]
    refine ⟨hex, ?_, ?_⟩ <;> simp [checkSPF, hex]
  · intro h
    have hex : extractSPFRecord recs = none := by
      simp [extractSPFRecord, h]
    simp [checkSPF, hex]

/-- Witness for C3 on a resolver returning two SPF records. -/
theorem C3_witness :
    extractSPFRecord [["v=spf1 a"], ["v=spf1 mx"]] = some ("v=spf1 a", true) ∧
    (checkSPF (.ok [["v=spf1 a"], ["v=spf1 mx"]])).record = some "v=spf1 a" := by
  have h := (C3_spf_multiple_and_missing [["v=spf1 a"], ["v=spf1 mx"]]
    "v=spf1 a" "v=spf1 mx" []).1 (by decide)
  exact ⟨h.1, h.2.1⟩

/-- Claim C5.  The DKIM key-size estimate is monotonic in the base64 key
length: whenever both records carry a `p=` group (`extractPValue` is the
capture group of the code's regex) and the first group is at least as long
as the second, the reported bucket of the first is never smaller.  The
reported strings equal `dkimBucketStr` of the group lengths, and
`bucketRank` encodes the claim's bucket order
(literal bit count < 1024-bit < 2048-bit, with `bits = round(len·6/8)·8`). -/
theorem C5_dkim_keysize_monotone : ∀ (r1 r2 : String) (p1 p2 : List Char),
    extractPValue r1.toList = some p1 → extractPValue r2.toList = some p2 →
    p2.length ≤ p1.length →
    estimateDKIMKeySize r1 = dkimBucketStr p1.length ∧
    estimateDKIMKeySize r2 = dkimBucketStr p2.length ∧
    bucketRank p2.length ≤ bucketRank p1.length := by
  intro r1 r2 p1 p2 h1 h2 hle
  have h1d : extractPValue r1.data = some p1 := h1
  have h2d : extractPValue r2.data = some p2 := h2
  refine ⟨?_, ?_, bucketRank_mono hle⟩ <;> simp [estimateDKIMKeySize, h1d, h2d]

/-- Witness for C5 on two short keys. -/
theorem C5_witness :
    estimateDKIMKeySize "p=ABCD" = dkimBucketStr 4 ∧
    estimateDKIMKeySize "p=AB" = dkimBucketStr 2 ∧
    bucketRank 2 ≤ bucketRank 4 :=
  C5_dkim_keysize_monotone "p=ABCD" "p=AB" ['A', 'B', 'C', 'D'] ['A', 'B']
    (by decide) (by decide) (by decide)

/-- Claim C9.  In `src/server.js`, when MX resolution succeeds with zero
records, `checkMX` returns status PASS with an empty record list and an
empty issue list; on every successful resolution, the status is WARN
exactly when the exchanges match more than one known provider
(`detectMultipleProviders`). -/
theorem C9_mx_zero_records_pass :
    checkMX (.ok []) = ⟨"PASS", [], "Unknown / Custom", []⟩ ∧
    ∀ recs : List MXRecord,
      ((checkMX (.ok recs)).status = "WARN" ↔ detectMultipleProviders recs = true) := by
  constructor
  · simp [checkMX, sortMX, detectEmailProvider, detectMultipleProviders]
  · intro recs
    simp only [checkMX, detectMultipleProviders_sortMX]
    cases h : detectMultipleProviders recs <;> simp [h]

/-- Claim C4.  `countSPFLookups` is invariant under reordering of the
whitespace-separated mechanism terms of the record: for every two
permutations of the same token list, the records assembled from them
(tokens joined by spaces, `joinSp`) receive the same lookup count.  This
holds because none of the five mechanism patterns contains a space, so no
match straddles a separator and the count decomposes into a sum of
per-token counts, which is permutation-invariant. -/
theorem C4_lookupCount_perm_invariant : ∀ (toks1 toks2 : List (List Char)),
    toks1.Perm toks2 →
    countSPFLookups ⟨joinSp toks1⟩ = countSPFLookups ⟨joinSp toks2⟩ := by
  intro toks1 toks2 hperm
  have key : ∀ (m : String), m.toList ≠ [] → ' ' ∉ m.toList →
      countPatWB m.toList (joinSp toks1) false = countPatWB m.toList (joinSp toks2) false := by
    intro m hm1 hm2
    rw [countPatWB_joinSp m.toList hm1 hm2 toks1, countPatWB_joinSp m.toList hm1 hm2 toks2]
    exact List.Perm.sum_eq (hperm.map _)
  have htl1 : (String.toList ⟨joinSp toks1⟩) = joinSp toks1 := rfl
  have htl2 : (String.toList ⟨joinSp toks2⟩) = joinSp toks2 := rfl
  simp only [countSPFLookups, spfLookupPatterns, List.map, htl1, htl2]
  rw [key "include:" (by decide) (by decide), key "a" (by decide) (by decide),
    key "mx" (by decide) (by decide), key "ptr" (by decide) (by decide),
    key "exists:" (by decide) (by decide)]

/-- Witness for C4: swapping two mechanism terms of a record. -/
theorem C4_witness :
    countSPFLookups ⟨joinSp ["include:x".toList, "a".toList]⟩ =
      countSPFLookups ⟨joinSp ["a".toList, "include:x".toList]⟩ :=
  C4_lookupCount_perm_invariant _ _ (List.Perm.swap _ _ _)

/-- Claim C6.  `checkPTR` returns status SKIPPED (and not FAIL) whenever no
IP is supplied; when an IP is supplied, `fcRdns` is exactly the membership
of the original IP in the forward-resolved address set of the first
reverse-DNS hostname, the status is PASS precisely when `fcRdns` holds,
and a resolution error at either hop yields FAIL with the underlying
error message as the sole issue. -/
theorem C6_ptr_spec : ∀ (rev : Except String (List String))
    (fwd : Option String → Except String (List String))
    (ip h e : String) (rest addrs : List String),
    checkPTR none rev fwd = ⟨"SKIPPED", none, none, ["No IP provided"]⟩ ∧
    (ip ≠ "" → fwd (some h) = .ok addrs →
      (checkPTR (some ip) (.ok (h :: rest)) fwd).fcRdns = some (addrs.contains ip) ∧
      ((checkPTR (some ip) (.ok (h :: rest)) fwd).status = "PASS" ↔
        addrs.contains ip = true)) ∧
    (ip ≠ "" → checkPTR (some ip) (.error e) fwd = ⟨"FAIL", none, some false, [e]⟩) ∧
    (ip ≠ "" → fwd (some h) = .error e →
      checkPTR (some ip) (.ok (h :: rest)) fwd = ⟨"FAIL", none, some false, [e]⟩) := by
  intro rev fwd ip h e rest addrs
  refine ⟨by simp [checkPTR], ?_, ?_, ?_⟩
  · intro hip hfwd
    have hcond : ¬(some ip = none ∨ some ip = some "") := by simp [hip]
    simp only [checkPTR, if_neg hcond, List.head?_cons, hfwd, Option.getD_some]
    constructor
    · trivial
    · by_cases hc : addrs.contains ip = true <;> simp [hc]
  · intro hip
    simp [checkPTR, hip]
  · intro hip hfwd
    simp [checkPTR, hip, hfwd]

/-- Witness for C6 with a concrete resolver environment. -/
theorem C6_witness :
    checkPTR none (.ok ["host.example"]) (fun _ => .ok ["9.9.9.9"]) =
      ⟨"SKIPPED", none, none, ["No IP provided"]⟩ ∧
    (checkPTR (some "9.9.9.9") (.ok ["host.example"])
      (fun _ => .ok ["9.9.9.9"])).status = "PASS" := by
  have h := C6_ptr_spec (.ok ["host.example"]) (fun _ => .ok ["9.9.9.9"])
    "9.9.9.9" "host.example" "err" [] ["9.9.9.9"]
  exact ⟨h.1, (h.2.1 (by decide) rfl).2.mpr (by decide)⟩

/-- Claim C8.  For the MX, SPF, DMARC and PTR checkers, a DNS resolution
failure (a rejected promise carrying message `e`) is never propagated past
the checker boundary: each checker converts it into a FAIL result carrying
a human-readable issue (the underlying message for MX/SPF/PTR, the fixed
"No DMARC record found" for DMARC); and the aggregate analysis is always
the record of all five checker results, each depending only on its own
resolver outcome, so one checker's failure never aborts the others. -/
theorem C8_errors_contained : ∀ (e target : String) (ip : Option String)
    (env : DNSEnv) (ipstr : String),
    checkMX (.error e) = ⟨"FAIL", [], "None", [e]⟩ ∧
    checkSPF (.error e) = ⟨"FAIL", none, none, 0, [e]⟩ ∧
    checkDMARC (.error e) = ⟨"FAIL", none, none, none, ["No DMARC record found"]⟩ ∧
    (ipstr ≠ "" →
      checkPTR (some ipstr) (.error e) env.fwd = ⟨"FAIL", none, some false, [e]⟩) ∧
    analyze target ip env =
      ⟨target, checkMX env.mx, checkSPF env.txt, checkDKIM env.dkimProbe target,
        checkDMARC env.dmarcTxt, checkPTR ip env.rev env.fwd⟩ := by
  intro e target ip env ipstr
  refine ⟨rfl, rfl, rfl, ?_, rfl⟩
  intro hip
  simp [checkPTR, hip]

/-- Witness for C8 at a concrete error message and environment. -/
theorem C8_witness :
    checkMX (.error "queryMx ENOTFOUND example.invalid") =
      ⟨"FAIL", [], "None", ["queryMx ENOTFOUND example.invalid"]⟩ ∧
    checkPTR (some "9.9.9.9") (.error "getHostByAddr ENOTFOUND")
      (fun _ => .error "getHostByAddr ENOTFOUND") =
      ⟨"FAIL", none, some false, ["getHostByAddr ENOTFOUND"]⟩ := by
  have h := C8_errors_contained "queryMx ENOTFOUND example.invalid" "example.invalid" none
    ⟨.error "e", .error "e", fun _ => .error "e", .error "e",
      .error "getHostByAddr ENOTFOUND", fun _ => .error "getHostByAddr ENOTFOUND"⟩
    "9.9.9.9"
  refine ⟨h.1, ?_⟩
  have h2 := C8_errors_contained "getHostByAddr ENOTFOUND" "example.invalid" none
    ⟨.error "e", .error "e", fun _ => .error "e", .error "e",
      .error "getHostByAddr ENOTFOUND", fun _ => .error "getHostByAddr ENOTFOUND"⟩
    "9.9.9.9"
  exact h2.2.2.2.1 (by decide)

/-- Claim C10.  Every result produced by any of the five checkers of
`src/server.js`, for every input and every DNS outcome, satisfies: the
status is PASS exactly when the issue list is empty — hence every WARN,
FAIL and SKIPPED result carries at least one issue. -/
theorem C10_status_issues_invariant : ∀ (mxO : Except String (List MXRecord))
    (txtO dmO : Except String (List (List String)))
    (probe : String → Except String (List (List String)))
    (target : String) (ip : Option String)
    (revO : Except String (List String))
    (fwdO : Option String → Except String (List String)),
    ((checkMX mxO).status = "PASS" ↔ (checkMX mxO).issues = []) ∧
    ((checkSPF txtO).status = "PASS" ↔ (checkSPF txtO).issues = []) ∧
    ((checkDKIM probe target).status = "PASS" ↔ (checkDKIM probe target).issues = []) ∧
    ((checkDMARC dmO).status = "PASS" ↔ (checkDMARC dmO).issues = []) ∧
    ((checkPTR ip revO fwdO).status = "PASS" ↔ (checkPTR ip revO fwdO).issues = []) := by
  intro mxO txtO dmO probe target ip revO fwdO
  refine ⟨?_, ?_, ?_, ?_, ?_⟩
  · cases mxO with
    | error e => simp [checkMX]
    | ok recs => simp only [checkMX]; exact pass_iff_empty _
  · cases txtO with
    | error e => simp [checkSPF]
    | ok txt =>
      cases hex : extractSPFRecord txt with
      | none => simp [checkSPF, hex]
      | some rm =>
        obtain ⟨r, m⟩ := rm
        simp only [checkSPF, hex]
        exact pass_iff_empty _
  · simp only [checkDKIM]
    split_ifs with hfound <;> simp
  · cases dmO with
    | error e => simp [checkDMARC]
    | ok recs =>
      cases recs with
      | nil => simp [checkDMARC]
      | cons r0 rrest => simp only [checkDMARC]; exact pass_iff_empty _
  · simp only [checkPTR]
    split_ifs with hip
    · simp
    · cases revO with
      | error e => simp
      | ok hostnames =>
        rcases hf : fwdO hostnames.head? with e2 | addresses
        · simp [hf]
        · simp only [hf]
          by_cases hc : ip.getD "" ∈ addresses <;> simp [hc]
